import Mathlib

/-!
# The `pcl` Python module of `py_point_types.cpp`

`src/bindings/python/common/py_point_types.cpp` is one function, the body of
`PYBIND11_MODULE(pcl, m)`.  It registers four classes with the binding
library and attaches constructors and one operator to two of them.

The development has three layers.

* The registration itself: `class_`, `def_`, `init`, `lshift` and the module
  `pcl`, transcribed statement by statement from the source.
* The call protocol of the binding library, as far as the registered members
  use it: argument loading per declared parameter type, overload dispatch in
  registration order (a pass without implicit conversions, then a pass with
  them), attribute lookup along the registered bases.
* The native records `pcl::PointXYZ` and `pcl::RGB` of `pcl/point_types.h`,
  which the source includes but which is not part of the repository.
-/

namespace PclBinding

/-! ## The registration -/

/-- A C++ name as the source writes it: `pcl::PointXYZ` is `⟨["pcl"], "PointXYZ"⟩`,
the unqualified `_PointXYZ` is `⟨[], "_PointXYZ"⟩`. -/
structure QName where
  ns : List String
  id : String
deriving DecidableEq, Repr

/-- The parameter types that occur in the `py::init<...>` lists of the source. -/
inductive CppType where
  /-- The type `float`. -/
  | float
  /-- The type `std::uint8_t`. -/
  | uint8_t
  /-- The type `const C &` for a class name `C`. -/
  | constRef (cls : QName)
deriving DecidableEq, Repr

/-- One entry of a `py::init<...>` list: the type and the name the source gives it. -/
structure Param where
  type : CppType
  name : String
deriving DecidableEq, Repr

/-- An operand of an operator expression handed to `.def`: `py::self`, or a
value of another type. -/
inductive Operand where
  | self
  | value (t : CppType)
deriving DecidableEq, Repr

/-- What a `.def(...)` of the source attaches to a class. -/
inductive Member where
  /-- The member `py::init<params...>()`. -/
  | init (params : List Param)
  /-- The member `l << r`. -/
  | lshift (l r : Operand)
deriving DecidableEq, Repr

/-- One registered class: `py::class_<cppType, public bases...>(m, pyName)`
with the members its `.def` chain attached, in order. -/
structure ClassReg where
  cppType : QName
  bases : List QName
  pyName : String
  members : List Member
deriving DecidableEq, Repr

/-- The module: its classes in registration order. -/
abbrev Module := List ClassReg

/-- The call `py::class_<cppType, public bases...>(m, pyName)`: a class with no member yet. -/
def class_ (cppType : QName) (bases : List QName) (pyName : String) : ClassReg :=
  { cppType := cppType, bases := bases, pyName := pyName, members := [] }

/-- The call `.def(member)`: attaches one more member, after those already there. -/
def ClassReg.def_ (c : ClassReg) (member : Member) : ClassReg :=
  { c with members := c.members ++ [member] }

/-- The expression `py::init<params...>()`. -/
def init (params : List Param) : Member := Member.init params

/-- The expression `py::self`. -/
def self : Operand := Operand.self

/-- Line 7 of the source: `py::class_<pcl::_PointXYZ>(m, "_PointXYZ");` -/
def regBasePointXYZ : ClassReg :=
  class_ ⟨["pcl"], "_PointXYZ"⟩ [] "_PointXYZ"

/-- Lines 8 to 12 of the source: `py::class_<pcl::PointXYZ, public _PointXYZ>(m, "PointXYZ")`
and its four `.def` calls. -/
def regPointXYZ : ClassReg :=
  ((((class_ ⟨["pcl"], "PointXYZ"⟩ [⟨[], "_PointXYZ"⟩] "PointXYZ").def_
    (init [⟨CppType.constRef ⟨[], "_PointXYZ"⟩, "p"⟩])).def_
    (init [])).def_
    (init [⟨CppType.float, "_x"⟩, ⟨CppType.float, "_y"⟩, ⟨CppType.float, "_z"⟩])).def_
    (Member.lshift self self)

/-- Line 13 of the source: `py::class_<pcl::_RGB>(m, "_RGB");` -/
def regBaseRGB : ClassReg :=
  class_ ⟨["pcl"], "_RGB"⟩ [] "_RGB"

/-- Lines 14 to 18 of the source: `py::class_<pcl::RGB, public _RGB>(m, "RGB")`
and its four `.def` calls. -/
def regRGB : ClassReg :=
  ((((class_ ⟨["pcl"], "RGB"⟩ [⟨[], "_RGB"⟩] "RGB").def_
    (init [⟨CppType.constRef ⟨[], "_RGB"⟩, "p"⟩])).def_
    (init [])).def_
    (init [⟨CppType.uint8_t, "_r"⟩, ⟨CppType.uint8_t, "_g"⟩, ⟨CppType.uint8_t, "_b"⟩])).def_
    (Member.lshift self self)

/-- The body of `PYBIND11_MODULE(pcl, m)`: the four registrations, in the order of the source. -/
def pcl : Module :=
  [regBasePointXYZ, regPointXYZ, regBaseRGB, regRGB]

/-- The parameter lists of the constructors of a class, in registration order. -/
def ClassReg.inits (c : ClassReg) : List (List Param) :=
  c.members.filterMap fun mem =>
    match mem with
    | Member.init ps => some ps
    | Member.lshift _ _ => none

/-- The operand pairs of the `<<` operators of a class, in registration order. -/
def ClassReg.lshifts (c : ClassReg) : List (Operand × Operand) :=
  c.members.filterMap fun mem =>
    match mem with
    | Member.init _ => none
    | Member.lshift l r => some (l, r)

/-- The Python attribute name under which the binding library stores a member. -/
def Member.pyName : Member → String
  | Member.init _ => "__init__"
  | Member.lshift _ _ => "__lshift__"

/-- The class registered under a Python name. -/
def findClass (m : Module) (pyName : String) : Option ClassReg :=
  m.find? fun c => c.pyName == pyName

/-- Whether a written C++ name denotes the registered class `c`: the
identifiers agree and the written qualifier, when there is one, is the
namespace of `c`. -/
def refersTo (written : QName) (c : ClassReg) : Bool :=
  written.id == c.cppType.id && (written.ns.isEmpty || written.ns == c.cppType.ns)

/-- The class registered for a written C++ name. -/
def findCpp (m : Module) (written : QName) : Option ClassReg :=
  m.find? (refersTo written)

/-- Whether class `c` is the class `target` or has it among its registered
bases, followed to the given depth. -/
def derivesFrom (m : Module) : Nat → ClassReg → QName → Bool
  | 0, _, _ => false
  | fuel + 1, c, target =>
    refersTo target c ||
      c.bases.any fun b =>
        match findCpp m b with
        | some bc => derivesFrom m fuel bc target
        | none => false

/-- Whether an object whose class has Python name `cls` can be passed where
`const target &` is declared. -/
def isInstance (m : Module) (cls : String) (target : QName) : Bool :=
  match findClass m cls with
  | some c => derivesFrom m (m.length + 1) c target
  | none => false

/-- The members an instance of `c` sees: its own, then those of its bases. -/
def allMembers (m : Module) : Nat → ClassReg → List Member
  | 0, _ => []
  | fuel + 1, c =>
    c.members ++
      c.bases.flatMap fun b =>
        match findCpp m b with
        | some bc => allMembers m fuel bc
        | none => []

/-! ## The native records

`pcl/point_types.h` is included by the source but is not a file of the
repository; the records and their constructors follow the specification. -/

/-- A 32-bit float, as its bit pattern: NaNs and the infinities are values like any other. -/
structure F32 where
  bits : Fin 4294967296
deriving DecidableEq, Repr

/-- A Python float (a 64-bit double), as its bit pattern. -/
structure F64 where
  bits : Fin 18446744073709551616
deriving DecidableEq, Repr

/-- Modelled from the spec: the data model of section 3, which `pcl/point_types.h`
declares and the repository does not contain.  A Point3D holds three 32-bit
floats x, y, z; a ColorPoint holds three 8-bit unsigned integers r, g, b. -/
inductive Data where
  | xyz (x y z : F32)
  | rgb (r g b : Nat)
deriving DecidableEq, Repr

/-- An object a Python caller holds: the Python name of its class and the native record. -/
structure Instance where
  cls : String
  data : Data
deriving DecidableEq, Repr

/-- The live objects; a reference is an index into this list. -/
abbrev Heap := List Instance

/-- The values a Python caller can pass or receive. -/
inductive PyVal where
  | none
  | notImplemented
  | int (i : Int)
  | float (d : F64)
  | str (s : String)
  | ref (addr : Nat)
deriving DecidableEq, Repr

/-- The Python exceptions a call can end in. -/
inductive PyErr where
  | typeError
  | attributeError
  | overflowError
  | valueError
deriving DecidableEq, Repr

/-- A Python argument after loading into its declared C++ parameter type. -/
inductive Arg where
  | f32 (v : F32)
  | u8 (n : Nat)
  | obj (o : Instance)
deriving DecidableEq, Repr

/-- The parts a call goes through that the source neither contains nor fixes:
the floating-point conversions of the float loader, and the native operator
behind `py::self << py::self`.  They stay parameters. -/
structure Native where
  /-- The C++ cast `(float) d` of a double. -/
  narrow : F64 → F32
  /-- The result of `PyFloat_AsDouble` on a Python int, with no value when it overflows. -/
  ofInt : Int → Option F64
  /-- The native `l << r` on two records, which the source binds but does not define. -/
  lshift : Instance → Instance → PyVal

/-- Modelled from the spec: the constructors of `pcl::PointXYZ` and `pcl::RGB`
(section 4), which `pcl/point_types.h` defines and the repository does not
contain.  The default constructor produces (0,0,0), the copy constructor
duplicates all fields, the field constructor stores its three arguments. -/
def nativeInit (cppType : QName) : List Arg → Option Data
  | [] =>
    if cppType.id = "PointXYZ" then some (Data.xyz ⟨0⟩ ⟨0⟩ ⟨0⟩)
    else if cppType.id = "RGB" then some (Data.rgb 0 0 0)
    else Option.none
  | [Arg.obj o] => some o.data
  | [Arg.f32 x, Arg.f32 y, Arg.f32 z] => some (Data.xyz x y z)
  | [Arg.u8 r, Arg.u8 g, Arg.u8 b] => some (Data.rgb r g b)
  | _ => Option.none

/-! ## The call protocol of the binding library -/

/-- Loading one Python argument into a declared parameter type.
`float` takes a Python float, and a Python int only when implicit conversion
is allowed.  `std::uint8_t` takes a Python int that fits the type and nothing
else: an int outside 0..255 does not load.  `const C &` takes a reference to a
live object whose class is `C` or derives from it. -/
def load (N : Native) (m : Module) (h : Heap) (convert : Bool) : CppType → PyVal → Option Arg
  | CppType.float, PyVal.float d => some (Arg.f32 (N.narrow d))
  | CppType.float, PyVal.int i =>
    if convert then (N.ofInt i).map fun d => Arg.f32 (N.narrow d) else Option.none
  | CppType.uint8_t, PyVal.int i =>
    if 0 ≤ i ∧ i < 256 then some (Arg.u8 i.toNat) else Option.none
  | CppType.constRef t, PyVal.ref addr =>
    match h[addr]? with
    | some o => if isInstance m o.cls t then some (Arg.obj o) else Option.none
    | Option.none => Option.none
  | _, _ => Option.none

/-- Loading an argument list against a parameter list: one argument per
parameter, no defaults, no variadic tail. -/
def bindArgs (N : Native) (m : Module) (h : Heap) (convert : Bool) :
    List CppType → List PyVal → Option (List Arg)
  | [], [] => some []
  | t :: ts, v :: vs =>
    match load N m h convert t v with
    | some a =>
      match bindArgs N m h convert ts vs with
      | some rest => some (a :: rest)
      | Option.none => Option.none
    | Option.none => Option.none
  | _, _ => Option.none

/-- The first overload, in registration order, whose parameters load. -/
def firstMatch (N : Native) (m : Module) (h : Heap) (convert : Bool) :
    List (List CppType) → List PyVal → Option (List Arg)
  | [], _ => Option.none
  | ts :: rest, vs =>
    match bindArgs N m h convert ts vs with
    | some args => some args
    | Option.none => firstMatch N m h convert rest vs

/-- Overload dispatch: a pass without implicit conversions, then a pass with them. -/
def dispatch (N : Native) (m : Module) (h : Heap) (overloads : List (List CppType))
    (vs : List PyVal) : Option (List Arg) :=
  match firstMatch N m h false overloads vs with
  | some args => some args
  | Option.none => firstMatch N m h true overloads vs

/-- The Python call `pcl.cls(args...)`.  A name the module does not hold is an
attribute error; arguments no registered constructor accepts are a type error
(also when the class registers no constructor at all). -/
def construct (N : Native) (m : Module) (h : Heap) (cls : String) (vs : List PyVal) :
    Except PyErr Instance :=
  match findClass m cls with
  | Option.none => Except.error PyErr.attributeError
  | some c =>
    match dispatch N m h (c.inits.map fun ps => ps.map Param.type) vs with
    | Option.none => Except.error PyErr.typeError
    | some args =>
      match nativeInit c.cppType args with
      | some d => Except.ok { cls := c.pyName, data := d }
      | Option.none => Except.error PyErr.typeError

/-- The parameter types of an operator of class `c`: `py::self` stands for `const c &`. -/
def operandType (c : ClassReg) : Operand → CppType
  | Operand.self => CppType.constRef c.cppType
  | Operand.value t => t

/-- The Python call `pcl.cls.__lshift__(args...)` with the full argument list,
`self` first.  Each `l << r` registered on the class is a two-parameter
overload; the operands are taken by const reference and handed to the native
operator.  The binding library registers an operator so that a call no
overload accepts, a wrong number of arguments included, raises nothing and
returns `NotImplemented`.  A name the module does not hold, or a class with no
registered `<<`, is an attribute error. -/
def callLshift (N : Native) (m : Module) (h : Heap) (cls : String) (vs : List PyVal) :
    Except PyErr PyVal :=
  match findClass m cls with
  | Option.none => Except.error PyErr.attributeError
  | some c =>
    if c.lshifts.isEmpty then Except.error PyErr.attributeError
    else
      match dispatch N m h (c.lshifts.map fun p => [operandType c p.1, operandType c p.2]) vs with
      | some [Arg.obj l, Arg.obj r] => Except.ok (N.lshift l r)
      | _ => Except.ok PyVal.notImplemented

/-- Reading attribute `name` of an object: the member registered under that
name on its class or a base, an attribute error when there is none. -/
def getattr (m : Module) (o : Instance) (name : String) : Except PyErr Member :=
  match findClass m o.cls with
  | Option.none => Except.error PyErr.attributeError
  | some c =>
    match (allMembers m (m.length + 1) c).find? fun mem => mem.pyName == name with
    | some mem => Except.ok mem
    | Option.none => Except.error PyErr.attributeError

/-- What a caller can do with the module. -/
inductive Call where
  /-- The call `pcl.cls(args...)`. -/
  | new (cls : String) (args : List PyVal)
  /-- The call `type(self).name(self, ...)`, full argument list given. -/
  | method (name : String) (args : List PyVal)
deriving DecidableEq, Repr

/-- One call: its result and the heap after it.  A successful construction
allocates the new object after the live ones and returns a reference to it.
A method call resolves `name` on the class of `self`: `__lshift__` hands its
operands to the native operator by const reference, or returns
`NotImplemented`, and writes nothing;
`__init__` on an object that is already constructed is ignored by the binding
library and returns `None`; any other name is an attribute error. -/
def invoke (N : Native) (m : Module) (h : Heap) : Call → Except PyErr PyVal × Heap
  | Call.new cls args =>
    match construct N m h cls args with
    | Except.ok o => (Except.ok (PyVal.ref h.length), h ++ [o])
    | Except.error e => (Except.error e, h)
  | Call.method name args =>
    match args with
    | PyVal.ref addr :: _ =>
      match h[addr]? with
      | some o =>
        match getattr m o name with
        | Except.ok (Member.init _) => (Except.ok PyVal.none, h)
        | Except.ok (Member.lshift _ _) => (callLshift N m h o.cls args, h)
        | Except.error e => (Except.error e, h)
      | Option.none => (Except.error PyErr.typeError, h)
    | _ => (Except.error PyErr.typeError, h)

/-- The heap after one call. -/
def step (N : Native) (m : Module) (h : Heap) (c : Call) : Heap :=
  (invoke N m h c).2

/-- The heap after a sequence of calls. -/
def run (N : Native) (m : Module) (h : Heap) (calls : List Call) : Heap :=
  calls.foldl (step N m) h


/-- An instance of the runtime parameters for evaluating calls at concrete
inputs.  Its conversions are placeholders; every theorem below holds for all
instances. -/
def Native.sample : Native :=
  { narrow := fun d => ⟨Fin.ofNat d.bits.val⟩
    ofInt := fun _ => Option.none
    lshift := fun _ _ => PyVal.none }

/-! ## The registered interface, for comparing the two point types -/

/-- A member as a caller sees it: a constructor by its parameter types (the
parameter names of the source dropped), an operator by its operands. -/
inductive MemberSig where
  | init (types : List CppType)
  | lshift (l r : Operand)
deriving DecidableEq, Repr

/-- The registered interface of a class: its C++ type, its bases, its Python
name, and the signatures of its members in registration order. -/
structure Interface where
  cppType : QName
  bases : List QName
  pyName : String
  members : List MemberSig
deriving DecidableEq, Repr

/-- The signature of a member. -/
def Member.sig : Member → MemberSig
  | Member.init ps => MemberSig.init (ps.map Param.type)
  | Member.lshift l r => MemberSig.lshift l r

/-- The registered interface of a class. -/
def ClassReg.interface (c : ClassReg) : Interface :=
  { cppType := c.cppType, bases := c.bases, pyName := c.pyName, members := c.members.map Member.sig }

/-- The renaming the specification describes for ColorPoint ("identical shape
to Point3D but with three 8-bit unsigned fields"), on identifiers:
`_PointXYZ` becomes `_RGB`, `PointXYZ` becomes `RGB`. -/
def renameId (s : String) : String :=
  if s = "_PointXYZ" then "_RGB" else if s = "PointXYZ" then "RGB" else s

/-- The renaming on qualified names; the namespace stays. -/
def renameQName (q : QName) : QName :=
  { ns := q.ns, id := renameId q.id }

/-- The renaming on types: `float` becomes `std::uint8_t`. -/
def renameType : CppType → CppType
  | CppType.float => CppType.uint8_t
  | CppType.uint8_t => CppType.uint8_t
  | CppType.constRef q => CppType.constRef (renameQName q)

/-- The renaming on operands. -/
def renameOperand : Operand → Operand
  | Operand.self => Operand.self
  | Operand.value t => Operand.value (renameType t)

/-- The renaming on member signatures. -/
def renameSig : MemberSig → MemberSig
  | MemberSig.init ts => MemberSig.init (ts.map renameType)
  | MemberSig.lshift l r => MemberSig.lshift (renameOperand l) (renameOperand r)

/-- The renaming on a registered interface. -/
def Interface.rename (i : Interface) : Interface :=
  { cppType := renameQName i.cppType, bases := i.bases.map renameQName,
    pyName := renameId i.pyName, members := i.members.map renameSig }

/-- An object as the module itself can have produced it: a PointXYZ holding
three floats, or an RGB holding three values below 256. -/
def Instance.Produced (o : Instance) : Prop :=
  (o.cls = "PointXYZ" ∧ ∃ x y z, o.data = Data.xyz x y z) ∨
    (o.cls = "RGB" ∧ ∃ r g b, o.data = Data.rgb r g b ∧ r < 256 ∧ g < 256 ∧ b < 256)

/-! ## Facts about the registration and the dispatch -/

theorem findClass_basePointXYZ : findClass pcl "_PointXYZ" = some regBasePointXYZ := rfl

theorem findClass_pointXYZ : findClass pcl "PointXYZ" = some regPointXYZ := rfl

theorem findClass_baseRGB : findClass pcl "_RGB" = some regBaseRGB := rfl

theorem findClass_rgb : findClass pcl "RGB" = some regRGB := rfl

theorem bindArgs_length (N : Native) (m : Module) (h : Heap) (cv : Bool) :
    ∀ (ts : List CppType) (vs : List PyVal) (args : List Arg),
      bindArgs N m h cv ts vs = some args → ts.length = vs.length
  | [], [], _, _ => rfl
  | [], _ :: _, _, hb => by simp [bindArgs] at hb
  | _ :: _, [], _, hb => by simp [bindArgs] at hb
  | t :: ts, v :: vs, args, hb => by
    simp only [bindArgs] at hb
    cases hl : load N m h cv t v with
    | none => simp [hl] at hb
    | some a =>
      cases hr : bindArgs N m h cv ts vs with
      | none => simp [hl, hr] at hb
      | some rest =>
        have := bindArgs_length N m h cv ts vs rest hr
        simp [this]

theorem bindArgs_none_of_length (N : Native) (m : Module) (h : Heap) (cv : Bool)
    (ts : List CppType) (vs : List PyVal) (hne : ts.length ≠ vs.length) :
    bindArgs N m h cv ts vs = Option.none := by
  cases hb : bindArgs N m h cv ts vs with
  | none => rfl
  | some args => exact absurd (bindArgs_length N m h cv ts vs args hb) hne


theorem findClass_pcl_cases (cls : String) (c : ClassReg) (hc : findClass pcl cls = some c) :
    (cls = "_PointXYZ" ∧ c = regBasePointXYZ) ∨ (cls = "PointXYZ" ∧ c = regPointXYZ) ∨
      (cls = "_RGB" ∧ c = regBaseRGB) ∨ (cls = "RGB" ∧ c = regRGB) := by
  have hname : c.pyName = cls := by
    have := List.find?_some hc
    simpa using this
  have hmem : c ∈ pcl := List.mem_of_find?_eq_some hc
  simp only [pcl, List.mem_cons, List.mem_singleton, List.not_mem_nil, or_false] at hmem
  rcases hmem with h | h | h | h <;> subst h <;> subst hname
  · exact Or.inl ⟨rfl, rfl⟩
  · exact Or.inr (Or.inl ⟨rfl, rfl⟩)
  · exact Or.inr (Or.inr (Or.inl ⟨rfl, rfl⟩))
  · exact Or.inr (Or.inr (Or.inr ⟨rfl, rfl⟩))

theorem isInstance_basePointXYZ (cls : String) :
    isInstance pcl cls ⟨[], "_PointXYZ"⟩ = true ↔ cls = "_PointXYZ" ∨ cls = "PointXYZ" := by
  constructor
  · intro h
    cases hc : findClass pcl cls with
    | none => simp [isInstance, hc] at h
    | some c =>
      rcases findClass_pcl_cases cls c hc with ⟨h1, -⟩ | ⟨h1, -⟩ | ⟨h1, -⟩ | ⟨h1, -⟩
      · exact Or.inl h1
      · exact Or.inr h1
      · subst h1; revert h; decide
      · subst h1; revert h; decide
  · rintro (h | h) <;> subst h <;> decide

theorem isInstance_baseRGB (cls : String) :
    isInstance pcl cls ⟨[], "_RGB"⟩ = true ↔ cls = "_RGB" ∨ cls = "RGB" := by
  constructor
  · intro h
    cases hc : findClass pcl cls with
    | none => simp [isInstance, hc] at h
    | some c =>
      rcases findClass_pcl_cases cls c hc with ⟨h1, -⟩ | ⟨h1, -⟩ | ⟨h1, -⟩ | ⟨h1, -⟩
      · subst h1; revert h; decide
      · subst h1; revert h; decide
      · exact Or.inl h1
      · exact Or.inr h1
  · rintro (h | h) <;> subst h <;> decide


theorem inits_pointXYZ :
    regPointXYZ.inits.map (fun ps => ps.map Param.type) =
      [[CppType.constRef ⟨[], "_PointXYZ"⟩], [], [CppType.float, CppType.float, CppType.float]] :=
  rfl

theorem inits_rgb :
    regRGB.inits.map (fun ps => ps.map Param.type) =
      [[CppType.constRef ⟨[], "_RGB"⟩], [], [CppType.uint8_t, CppType.uint8_t, CppType.uint8_t]] :=
  rfl

theorem construct_arity (N : Native) (h : Heap) (cls : String) (c : ClassReg) (t : CppType)
    (t1 t2 t3 : CppType) (vs : List PyVal) (hc : findClass pcl cls = some c)
    (hi : c.inits.map (fun ps => ps.map Param.type) = [[t], [], [t1, t2, t3]])
    (h0 : vs.length ≠ 0) (h1 : vs.length ≠ 1) (h3 : vs.length ≠ 3) :
    construct N pcl h cls vs = Except.error PyErr.typeError := by
  have e1 : ∀ cv, bindArgs N pcl h cv [t] vs = Option.none := fun cv =>
    bindArgs_none_of_length N pcl h cv _ vs (by simpa using Ne.symm h1)
  have e0 : ∀ cv, bindArgs N pcl h cv [] vs = Option.none := fun cv =>
    bindArgs_none_of_length N pcl h cv _ vs (by simpa using Ne.symm h0)
  have e3 : ∀ cv, bindArgs N pcl h cv [t1, t2, t3] vs = Option.none := fun cv =>
    bindArgs_none_of_length N pcl h cv _ vs (by simpa using Ne.symm h3)
  simp [construct, hc, hi, dispatch, firstMatch, e0, e1, e3]

theorem construct_default (N : Native) (h : Heap) :
    construct N pcl h "PointXYZ" [] = Except.ok ⟨"PointXYZ", Data.xyz ⟨0⟩ ⟨0⟩ ⟨0⟩⟩ ∧
      construct N pcl h "RGB" [] = Except.ok ⟨"RGB", Data.rgb 0 0 0⟩ :=
  ⟨rfl, rfl⟩

theorem construct_pointXYZ_copy (N : Native) (h : Heap) (addr : Nat) (o : Instance)
    (ho : h[addr]? = some o) (hcls : o.cls = "PointXYZ") :
    construct N pcl h "PointXYZ" [PyVal.ref addr] = Except.ok o := by
  obtain ⟨cls, d⟩ := o
  simp only at hcls
  subst hcls
  have hi : isInstance pcl "PointXYZ" ⟨[], "_PointXYZ"⟩ = true := by decide
  simp [construct, findClass_pointXYZ, inits_pointXYZ, dispatch, firstMatch, bindArgs, load, ho,
    hi, nativeInit]
  rfl

theorem construct_rgb_copy (N : Native) (h : Heap) (addr : Nat) (o : Instance)
    (ho : h[addr]? = some o) (hcls : o.cls = "RGB") :
    construct N pcl h "RGB" [PyVal.ref addr] = Except.ok o := by
  obtain ⟨cls, d⟩ := o
  simp only at hcls
  subst hcls
  have hi : isInstance pcl "RGB" ⟨[], "_RGB"⟩ = true := by decide
  simp [construct, findClass_rgb, inits_rgb, dispatch, firstMatch, bindArgs, load, ho,
    hi, nativeInit]
  rfl

theorem construct_pointXYZ_fields (N : Native) (h : Heap) (a b c : F64) :
    construct N pcl h "PointXYZ" [PyVal.float a, PyVal.float b, PyVal.float c] =
      Except.ok ⟨"PointXYZ", Data.xyz (N.narrow a) (N.narrow b) (N.narrow c)⟩ :=
  rfl

theorem construct_rgb_fields (N : Native) (h : Heap) (r g b : Int)
    (hr : 0 ≤ r ∧ r < 256) (hg : 0 ≤ g ∧ g < 256) (hb : 0 ≤ b ∧ b < 256) :
    construct N pcl h "RGB" [PyVal.int r, PyVal.int g, PyVal.int b] =
      Except.ok ⟨"RGB", Data.rgb r.toNat g.toNat b.toNat⟩ := by
  simp [construct, findClass_rgb, inits_rgb, dispatch, firstMatch, bindArgs, load, hr, hg, hb,
    nativeInit]
  rfl

theorem firstMatch_none_of_length (N : Native) (m : Module) (h : Heap) (cv : Bool)
    (vs : List PyVal) :
    ∀ (overloads : List (List CppType)), (∀ ts ∈ overloads, ts.length ≠ vs.length) →
      firstMatch N m h cv overloads vs = Option.none
  | [], _ => rfl
  | ts :: rest, hall => by
    have h1 : bindArgs N m h cv ts vs = Option.none :=
      bindArgs_none_of_length N m h cv ts vs (hall ts (List.mem_cons_self _ _))
    have h2 := firstMatch_none_of_length N m h cv vs rest
      (fun ts hts => hall ts (List.mem_cons_of_mem _ hts))
    simp [firstMatch, h1, h2]

theorem lshifts_pointXYZ :
    regPointXYZ.lshifts.map (fun p => [operandType regPointXYZ p.1, operandType regPointXYZ p.2]) =
      [[CppType.constRef ⟨["pcl"], "PointXYZ"⟩, CppType.constRef ⟨["pcl"], "PointXYZ"⟩]] :=
  rfl

theorem lshifts_rgb :
    regRGB.lshifts.map (fun p => [operandType regRGB p.1, operandType regRGB p.2]) =
      [[CppType.constRef ⟨["pcl"], "RGB"⟩, CppType.constRef ⟨["pcl"], "RGB"⟩]] :=
  rfl

theorem callLshift_arity (N : Native) (h : Heap) (cls : String) (vs : List PyVal)
    (hcls : cls = "PointXYZ" ∨ cls = "RGB") (h2 : vs.length ≠ 2) :
    callLshift N pcl h cls vs = Except.ok PyVal.notImplemented := by
  have key : ∀ c : ClassReg, findClass pcl cls = some c → c.lshifts.isEmpty = false →
      callLshift N pcl h cls vs = Except.ok PyVal.notImplemented := by
    intro c hc hne
    have hall : ∀ ts ∈ c.lshifts.map (fun p => [operandType c p.1, operandType c p.2]),
        ts.length ≠ vs.length := by
      intro ts hts
      simp only [List.mem_map] at hts
      obtain ⟨p, -, rfl⟩ := hts
      simpa using Ne.symm h2
    simp [callLshift, hc, hne, dispatch, firstMatch_none_of_length N pcl h _ _ _ hall]
  rcases hcls with rfl | rfl
  · exact key regPointXYZ findClass_pointXYZ rfl
  · exact key regRGB findClass_rgb rfl

theorem callLshift_pointXYZ (N : Native) (h : Heap) (l r : Nat) (ol or : Instance)
    (hl : h[l]? = some ol) (hr : h[r]? = some or) (hcl : ol.cls = "PointXYZ")
    (hcr : or.cls = "PointXYZ") :
    callLshift N pcl h "PointXYZ" [PyVal.ref l, PyVal.ref r] = Except.ok (N.lshift ol or) := by
  have hi : isInstance pcl "PointXYZ" ⟨["pcl"], "PointXYZ"⟩ = true := by decide
  have hne : regPointXYZ.lshifts.isEmpty = false := rfl
  simp only [callLshift, findClass_pointXYZ, hne, lshifts_pointXYZ]
  simp [dispatch, firstMatch, bindArgs, load, hl, hr, hcl, hcr, hi]

theorem callLshift_rgb (N : Native) (h : Heap) (l r : Nat) (ol or : Instance)
    (hl : h[l]? = some ol) (hr : h[r]? = some or) (hcl : ol.cls = "RGB")
    (hcr : or.cls = "RGB") :
    callLshift N pcl h "RGB" [PyVal.ref l, PyVal.ref r] = Except.ok (N.lshift ol or) := by
  have hi : isInstance pcl "RGB" ⟨["pcl"], "RGB"⟩ = true := by decide
  have hne : regRGB.lshifts.isEmpty = false := rfl
  simp only [callLshift, findClass_rgb, hne, lshifts_rgb]
  simp [dispatch, firstMatch, bindArgs, load, hl, hr, hcl, hcr, hi]

theorem step_method (N : Native) (m : Module) (h : Heap) (name : String)
    (args : List PyVal) : step N m h (Call.method name args) = h := by
  simp only [step, invoke]
  split
  · split
    · split <;> rfl
    · rfl
  · rfl

theorem step_append (N : Native) (m : Module) (h : Heap) (c : Call) :
    ∃ ext, step N m h c = h ++ ext := by
  cases c with
  | new cls args =>
    simp only [step, invoke]
    cases construct N m h cls args with
    | ok o => exact ⟨[o], rfl⟩
    | error e => exact ⟨[], by simp⟩
  | method name args => exact ⟨[], by rw [step_method, List.append_nil]⟩

theorem run_append (N : Native) (m : Module) :
    ∀ (calls : List Call) (h : Heap), ∃ ext, run N m h calls = h ++ ext
  | [], h => ⟨[], by simp [run]⟩
  | c :: calls, h => by
    obtain ⟨e1, h1⟩ := step_append N m h c
    obtain ⟨e2, h2⟩ := run_append N m calls (step N m h c)
    refine ⟨e1 ++ e2, ?_⟩
    have : run N m h (c :: calls) = run N m (step N m h c) calls := rfl
    rw [this, h2, h1, List.append_assoc]

theorem step_run_cons (N : Native) (m : Module) (h : Heap) (c : Call) (calls : List Call) :
    run N m h (c :: calls) = run N m (step N m h c) calls := rfl

theorem bindArgs_nil_some (N : Native) (m : Module) (h : Heap) (cv : Bool) (vs : List PyVal)
    (args : List Arg) (hb : bindArgs N m h cv [] vs = some args) : vs = [] ∧ args = [] := by
  cases vs with
  | nil => simp [bindArgs] at hb; exact ⟨rfl, hb⟩
  | cons v rest => simp [bindArgs] at hb

theorem bindArgs_cons_some (N : Native) (m : Module) (h : Heap) (cv : Bool) (t : CppType)
    (ts : List CppType) (vs : List PyVal) (args : List Arg)
    (hb : bindArgs N m h cv (t :: ts) vs = some args) :
    ∃ v rest a as, vs = v :: rest ∧ load N m h cv t v = some a ∧
      bindArgs N m h cv ts rest = some as ∧ args = a :: as := by
  cases vs with
  | nil => simp [bindArgs] at hb
  | cons v rest =>
    simp only [bindArgs] at hb
    cases hl : load N m h cv t v with
    | none => simp [hl] at hb
    | some a =>
      cases hr : bindArgs N m h cv ts rest with
      | none => simp [hl, hr] at hb
      | some as =>
        simp [hl, hr] at hb
        exact ⟨v, rest, a, as, rfl, hl, hr, hb.symm⟩

theorem load_float_some (N : Native) (m : Module) (h : Heap) (cv : Bool) (v : PyVal) (a : Arg)
    (hl : load N m h cv CppType.float v = some a) : ∃ x, a = Arg.f32 x := by
  cases v with
  | float d => simp [load] at hl; exact ⟨_, hl.symm⟩
  | int i =>
    simp only [load] at hl
    split at hl
    · cases hi : N.ofInt i with
      | none => simp [hi] at hl
      | some d => simp [hi] at hl; exact ⟨_, hl.symm⟩
    · simp at hl
  | none => simp [load] at hl
  | str s => simp [load] at hl
  | notImplemented => simp [load] at hl
  | ref addr => simp [load] at hl

theorem load_uint8_some (N : Native) (m : Module) (h : Heap) (cv : Bool) (v : PyVal) (a : Arg)
    (hl : load N m h cv CppType.uint8_t v = some a) :
    ∃ i : Int, v = PyVal.int i ∧ 0 ≤ i ∧ i < 256 ∧ a = Arg.u8 i.toNat := by
  cases v with
  | int i =>
    simp only [load] at hl
    split at hl
    · rename_i hr
      simp at hl
      exact ⟨i, rfl, hr.1, hr.2, hl.symm⟩
    · simp at hl
  | float d => simp [load] at hl
  | none => simp [load] at hl
  | str s => simp [load] at hl
  | notImplemented => simp [load] at hl
  | ref addr => simp [load] at hl

theorem load_constRef_some (N : Native) (m : Module) (h : Heap) (cv : Bool) (t : QName)
    (v : PyVal) (a : Arg) (hl : load N m h cv (CppType.constRef t) v = some a) :
    ∃ addr o, v = PyVal.ref addr ∧ h[addr]? = some o ∧ isInstance m o.cls t = true ∧
      a = Arg.obj o := by
  cases v with
  | ref addr =>
    simp only [load] at hl
    cases ho : h[addr]? with
    | none => simp [ho] at hl
    | some o =>
      simp only [ho] at hl
      split at hl
      · rename_i hi
        simp at hl
        exact ⟨addr, o, rfl, ho, hi, hl.symm⟩
      · simp at hl
  | int i => simp [load] at hl
  | float d => simp [load] at hl
  | none => simp [load] at hl
  | str s => simp [load] at hl
  | notImplemented => simp [load] at hl

theorem firstMatch_some (N : Native) (m : Module) (h : Heap) (cv : Bool) (vs : List PyVal)
    (args : List Arg) :
    ∀ (overloads : List (List CppType)), firstMatch N m h cv overloads vs = some args →
      ∃ ts ∈ overloads, bindArgs N m h cv ts vs = some args
  | [], hf => by simp [firstMatch] at hf
  | ts :: rest, hf => by
    simp only [firstMatch] at hf
    cases hb : bindArgs N m h cv ts vs with
    | some a =>
      simp only [hb, Option.some.injEq] at hf
      exact ⟨ts, List.mem_cons_self _ _, by rw [hb, hf]⟩
    | none =>
      simp only [hb] at hf
      obtain ⟨ts2, hmem, h2⟩ := firstMatch_some N m h cv vs args rest hf
      exact ⟨ts2, List.mem_cons_of_mem _ hmem, h2⟩

theorem dispatch_some (N : Native) (m : Module) (h : Heap) (overloads : List (List CppType))
    (vs : List PyVal) (args : List Arg) (hd : dispatch N m h overloads vs = some args) :
    ∃ cv, ∃ ts ∈ overloads, bindArgs N m h cv ts vs = some args := by
  simp only [dispatch] at hd
  cases hf : firstMatch N m h false overloads vs with
  | some a =>
    simp only [hf, Option.some.injEq] at hd
    subst hd
    exact ⟨false, firstMatch_some N m h false vs a overloads hf⟩
  | none =>
    simp only [hf] at hd
    exact ⟨true, firstMatch_some N m h true vs args overloads hd⟩

theorem bindArgs_three_some (N : Native) (m : Module) (h : Heap) (cv : Bool) (t : CppType)
    (vs : List PyVal) (args : List Arg) (hb : bindArgs N m h cv [t, t, t] vs = some args) :
    ∃ v1 v2 v3 a1 a2 a3, vs = [v1, v2, v3] ∧ args = [a1, a2, a3] ∧
      load N m h cv t v1 = some a1 ∧ load N m h cv t v2 = some a2 ∧
      load N m h cv t v3 = some a3 := by
  obtain ⟨v1, r1, a1, as1, rfl, hl1, hb1, rfl⟩ := bindArgs_cons_some N m h cv t _ vs args hb
  obtain ⟨v2, r2, a2, as2, rfl, hl2, hb2, rfl⟩ := bindArgs_cons_some N m h cv t _ r1 as1 hb1
  obtain ⟨v3, r3, a3, as3, rfl, hl3, hb3, rfl⟩ := bindArgs_cons_some N m h cv t _ r2 as2 hb2
  obtain ⟨rfl, rfl⟩ := bindArgs_nil_some N m h cv r3 as3 hb3
  exact ⟨v1, v2, v3, a1, a2, a3, rfl, rfl, hl1, hl2, hl3⟩

theorem bindArgs_one_some (N : Native) (m : Module) (h : Heap) (cv : Bool) (t : CppType)
    (vs : List PyVal) (args : List Arg) (hb : bindArgs N m h cv [t] vs = some args) :
    ∃ v a, vs = [v] ∧ args = [a] ∧ load N m h cv t v = some a := by
  obtain ⟨v1, r1, a1, as1, rfl, hl1, hb1, rfl⟩ := bindArgs_cons_some N m h cv t _ vs args hb
  obtain ⟨rfl, rfl⟩ := bindArgs_nil_some N m h cv r1 as1 hb1
  exact ⟨v1, a1, rfl, rfl, hl1⟩

theorem construct_base_error (N : Native) (h : Heap) (vs : List PyVal) :
    construct N pcl h "_PointXYZ" vs = Except.error PyErr.typeError ∧
      construct N pcl h "_RGB" vs = Except.error PyErr.typeError := by
  constructor <;> rfl

theorem Produced.not_base (o : Instance) (ho : o.Produced) :
    o.cls ≠ "_PointXYZ" ∧ o.cls ≠ "_RGB" := by
  rcases ho with ⟨hc, -⟩ | ⟨hc, -⟩ <;> rw [hc] <;> constructor <;> decide

theorem construct_produced (N : Native) (h : Heap) (cls : String) (vs : List PyVal)
    (o : Instance) (hh : ∀ p ∈ h, p.Produced) (hc : construct N pcl h cls vs = Except.ok o) :
    o.Produced := by
  simp only [construct] at hc
  cases hf : findClass pcl cls with
  | none => simp [hf] at hc
  | some c =>
    simp only [hf] at hc
    cases hd : dispatch N pcl h (c.inits.map fun ps => ps.map Param.type) vs with
    | none => simp [hd] at hc
    | some args =>
      simp only [hd] at hc
      obtain ⟨cv, ts, hts, hb⟩ := dispatch_some N pcl h _ vs args hd
      rcases findClass_pcl_cases cls c hf with ⟨-, rfl⟩ | ⟨-, rfl⟩ | ⟨-, rfl⟩ | ⟨-, rfl⟩
      · simp [regBasePointXYZ, class_, ClassReg.inits] at hts
      · rw [inits_pointXYZ] at hts
        simp only [List.mem_cons, List.mem_singleton, List.not_mem_nil, or_false] at hts
        rcases hts with rfl | rfl | rfl
        · obtain ⟨v, a, rfl, rfl, hl⟩ := bindArgs_one_some N pcl h cv _ vs args hb
          obtain ⟨addr, p, rfl, hp, hi, rfl⟩ := load_constRef_some N pcl h cv _ v a hl
          have hpp : p.Produced := hh p (List.getElem?_mem hp)
          have hcls := (isInstance_basePointXYZ p.cls).1 hi
          simp only [nativeInit] at hc
          cases hc
          rcases hpp with ⟨h1, h2⟩ | ⟨h1, -⟩
          · exact Or.inl ⟨rfl, h2⟩
          · rw [h1] at hcls
            exact absurd hcls (by decide)
        · obtain ⟨rfl, rfl⟩ := bindArgs_nil_some N pcl h cv vs args hb
          cases hc
          exact Or.inl ⟨rfl, _, _, _, rfl⟩
        · obtain ⟨v1, v2, v3, a1, a2, a3, rfl, rfl, hl1, hl2, hl3⟩ :=
            bindArgs_three_some N pcl h cv _ vs args hb
          obtain ⟨x, rfl⟩ := load_float_some N pcl h cv v1 a1 hl1
          obtain ⟨y, rfl⟩ := load_float_some N pcl h cv v2 a2 hl2
          obtain ⟨z, rfl⟩ := load_float_some N pcl h cv v3 a3 hl3
          simp only [nativeInit] at hc
          cases hc
          exact Or.inl ⟨rfl, _, _, _, rfl⟩
      · simp [regBaseRGB, class_, ClassReg.inits] at hts
      · rw [inits_rgb] at hts
        simp only [List.mem_cons, List.mem_singleton, List.not_mem_nil, or_false] at hts
        rcases hts with rfl | rfl | rfl
        · obtain ⟨v, a, rfl, rfl, hl⟩ := bindArgs_one_some N pcl h cv _ vs args hb
          obtain ⟨addr, p, rfl, hp, hi, rfl⟩ := load_constRef_some N pcl h cv _ v a hl
          have hpp : p.Produced := hh p (List.getElem?_mem hp)
          have hcls := (isInstance_baseRGB p.cls).1 hi
          simp only [nativeInit] at hc
          cases hc
          rcases hpp with ⟨h1, -⟩ | ⟨h1, h2⟩
          · rw [h1] at hcls
            exact absurd hcls (by decide)
          · exact Or.inr ⟨rfl, h2⟩
        · obtain ⟨rfl, rfl⟩ := bindArgs_nil_some N pcl h cv vs args hb
          cases hc
          exact Or.inr ⟨rfl, 0, 0, 0, rfl, by decide, by decide, by decide⟩
        · obtain ⟨v1, v2, v3, a1, a2, a3, rfl, rfl, hl1, hl2, hl3⟩ :=
            bindArgs_three_some N pcl h cv _ vs args hb
          obtain ⟨r, -, hr0, hr1, rfl⟩ := load_uint8_some N pcl h cv v1 a1 hl1
          obtain ⟨g, -, hg0, hg1, rfl⟩ := load_uint8_some N pcl h cv v2 a2 hl2
          obtain ⟨b, -, hb0, hb1, rfl⟩ := load_uint8_some N pcl h cv v3 a3 hl3
          simp only [nativeInit] at hc
          cases hc
          exact Or.inr ⟨rfl, _, _, _, rfl, by omega, by omega, by omega⟩

theorem step_produced (N : Native) (h : Heap) (c : Call) (hh : ∀ p ∈ h, p.Produced) :
    ∀ p ∈ step N pcl h c, p.Produced := by
  cases c with
  | new cls args =>
    simp only [step, invoke]
    cases hc : construct N pcl h cls args with
    | ok o =>
      intro p hp
      simp only [List.mem_append, List.mem_singleton] at hp
      rcases hp with hp | rfl
      · exact hh p hp
      · exact construct_produced N h cls args p hh hc
    | error e => exact hh
  | method name args =>
    rw [step_method]
    exact hh

theorem run_produced (N : Native) :
    ∀ (calls : List Call) (h : Heap), (∀ p ∈ h, p.Produced) →
      ∀ p ∈ run N pcl h calls, p.Produced
  | [], _, hh => hh
  | c :: calls, h, hh => by
    rw [step_run_cons]
    exact run_produced N calls (step N pcl h c) (step_produced N h c hh)

theorem construct_ok_inv (N : Native) (m : Module) (h : Heap) (cls : String) (vs : List PyVal)
    (o : Instance) (hc : construct N m h cls vs = Except.ok o) :
    ∃ c args cv ts, findClass m cls = some c ∧ ts ∈ c.inits.map (fun ps => ps.map Param.type) ∧
      bindArgs N m h cv ts vs = some args ∧ nativeInit c.cppType args = some o.data ∧
      o.cls = c.pyName := by
  simp only [construct] at hc
  cases hf : findClass m cls with
  | none => simp [hf] at hc
  | some c =>
    simp only [hf] at hc
    cases hd : dispatch N m h (c.inits.map fun ps => ps.map Param.type) vs with
    | none => simp [hd] at hc
    | some args =>
      simp only [hd] at hc
      obtain ⟨cv, ts, hts, hb⟩ := dispatch_some N m h _ vs args hd
      cases hn : nativeInit c.cppType args with
      | none => simp [hn] at hc
      | some d =>
        simp only [hn] at hc
        cases hc
        exact ⟨c, args, cv, ts, rfl, hts, hb, hn, rfl⟩

theorem copy_source_pointXYZ (N : Native) (h : Heap) (v : PyVal) (o : Instance)
    (hh : ∀ p ∈ h, p.Produced) (hc : construct N pcl h "PointXYZ" [v] = Except.ok o) :
    ∃ addr p, v = PyVal.ref addr ∧ h[addr]? = some p ∧ p.cls = "PointXYZ" := by
  obtain ⟨c, args, cv, ts, hf, hts, hb, -, -⟩ := construct_ok_inv N pcl h _ _ o hc
  rw [findClass_pointXYZ] at hf
  cases hf
  rw [inits_pointXYZ] at hts
  simp only [List.mem_cons, List.mem_singleton, List.not_mem_nil, or_false] at hts
  rcases hts with rfl | rfl | rfl
  · obtain ⟨v1, a, hv, rfl, hl⟩ := bindArgs_one_some N pcl h cv _ _ args hb
    cases hv
    obtain ⟨addr, p, rfl, hp, hi, rfl⟩ := load_constRef_some N pcl h cv _ _ _ hl
    refine ⟨addr, p, rfl, hp, ?_⟩
    have hpp : p.Produced := hh p (List.getElem?_mem hp)
    rcases (isInstance_basePointXYZ p.cls).1 hi with h1 | h1
    · exact absurd h1 (Produced.not_base p hpp).1
    · exact h1
  · exact absurd (bindArgs_length N pcl h cv _ _ args hb) (by simp)
  · exact absurd (bindArgs_length N pcl h cv _ _ args hb) (by simp)

theorem copy_source_rgb (N : Native) (h : Heap) (v : PyVal) (o : Instance)
    (hh : ∀ p ∈ h, p.Produced) (hc : construct N pcl h "RGB" [v] = Except.ok o) :
    ∃ addr p, v = PyVal.ref addr ∧ h[addr]? = some p ∧ p.cls = "RGB" := by
  obtain ⟨c, args, cv, ts, hf, hts, hb, -, -⟩ := construct_ok_inv N pcl h _ _ o hc
  rw [findClass_rgb] at hf
  cases hf
  rw [inits_rgb] at hts
  simp only [List.mem_cons, List.mem_singleton, List.not_mem_nil, or_false] at hts
  rcases hts with rfl | rfl | rfl
  · obtain ⟨v1, a, hv, rfl, hl⟩ := bindArgs_one_some N pcl h cv _ _ args hb
    cases hv
    obtain ⟨addr, p, rfl, hp, hi, rfl⟩ := load_constRef_some N pcl h cv _ _ _ hl
    refine ⟨addr, p, rfl, hp, ?_⟩
    have hpp : p.Produced := hh p (List.getElem?_mem hp)
    rcases (isInstance_baseRGB p.cls).1 hi with h1 | h1
    · exact absurd h1 (Produced.not_base p hpp).2
    · exact h1
  · exact absurd (bindArgs_length N pcl h cv _ _ args hb) (by simp)
  · exact absurd (bindArgs_length N pcl h cv _ _ args hb) (by simp)

theorem construct_rgb_out_of_range (N : Native) (h : Heap) (r g b : Int)
    (hout : ¬((0 ≤ r ∧ r < 256) ∧ (0 ≤ g ∧ g < 256) ∧ (0 ≤ b ∧ b < 256))) :
    construct N pcl h "RGB" [PyVal.int r, PyVal.int g, PyVal.int b] =
      Except.error PyErr.typeError := by
  by_cases hr : 0 ≤ r ∧ r < 256 <;> by_cases hg : 0 ≤ g ∧ g < 256 <;>
    by_cases hb : 0 ≤ b ∧ b < 256 <;>
    first
    | (simp [construct, findClass_rgb, inits_rgb, dispatch, firstMatch, bindArgs, load, hr, hg, hb]; done)
    | exact absurd (And.intro hr (And.intro hg hb)) hout

theorem allMembers_pointXYZ :
    allMembers pcl (pcl.length + 1) regPointXYZ = regPointXYZ.members := by decide

theorem allMembers_rgb :
    allMembers pcl (pcl.length + 1) regRGB = regRGB.members := by decide

theorem getattr_point_names (o : Instance) (name : String) (mem : Member)
    (hcls : o.cls = "PointXYZ" ∨ o.cls = "RGB") (hg : getattr pcl o name = Except.ok mem) :
    name = "__init__" ∨ name = "__lshift__" := by
  simp only [getattr] at hg
  have key : ∀ c : ClassReg, (c = regPointXYZ ∨ c = regRGB) →
      ∀ mem, (allMembers pcl (pcl.length + 1) c).find? (fun mem => mem.pyName == name) = some mem →
        name = "__init__" ∨ name = "__lshift__" := by
    intro c hc mem2 hfind
    have h1 := List.find?_some hfind
    have h2 : mem2 ∈ allMembers pcl (pcl.length + 1) c := List.mem_of_find?_eq_some hfind
    have h3 : mem2.pyName = name := by simpa using h1
    rw [← h3]
    cases mem2 with
    | init ps => exact Or.inl rfl
    | lshift l r => exact Or.inr rfl
  rcases hcls with hcls | hcls
  · rw [hcls, findClass_pointXYZ] at hg
    simp only at hg
    cases hfind : (allMembers pcl (pcl.length + 1) regPointXYZ).find?
        (fun mem => mem.pyName == name) with
    | none => simp [hfind] at hg
    | some m2 => exact key _ (Or.inl rfl) m2 hfind
  · rw [hcls, findClass_rgb] at hg
    simp only at hg
    cases hfind : (allMembers pcl (pcl.length + 1) regRGB).find?
        (fun mem => mem.pyName == name) with
    | none => simp [hfind] at hg
    | some m2 => exact key _ (Or.inr rfl) m2 hfind

theorem getattr_xyz (d : Data) :
    getattr pcl ⟨"PointXYZ", d⟩ "x" = Except.error PyErr.attributeError ∧
      getattr pcl ⟨"PointXYZ", d⟩ "y" = Except.error PyErr.attributeError ∧
      getattr pcl ⟨"PointXYZ", d⟩ "z" = Except.error PyErr.attributeError :=
  ⟨rfl, rfl, rfl⟩

theorem getattr_rgb (d : Data) :
    getattr pcl ⟨"RGB", d⟩ "r" = Except.error PyErr.attributeError ∧
      getattr pcl ⟨"RGB", d⟩ "g" = Except.error PyErr.attributeError ∧
      getattr pcl ⟨"RGB", d⟩ "b" = Except.error PyErr.attributeError :=
  ⟨rfl, rfl, rfl⟩

/-! ## The claims -/

/-- C1.  The class registered as "PointXYZ" has exactly three constructors, in
this order: one parameter of type `const _PointXYZ &`, no parameter, three
parameters of type `float`.  A call with no argument, with a reference to a
live PointXYZ, or with three Python floats constructs a PointXYZ; a call with
any number of arguments other than 0, 1 or 3 matches no constructor. -/
theorem pointXYZ_constructors :
    findClass pcl "PointXYZ" = some regPointXYZ ∧
    regPointXYZ.inits.map (fun ps => ps.map Param.type) =
      [[CppType.constRef ⟨[], "_PointXYZ"⟩], [], [CppType.float, CppType.float, CppType.float]] ∧
    (∀ (N : Native) (h : Heap), ∃ o, construct N pcl h "PointXYZ" [] = Except.ok o ∧
      o.cls = "PointXYZ") ∧
    (∀ (N : Native) (h : Heap) (addr : Nat) (p : Instance), h[addr]? = some p →
      p.cls = "PointXYZ" →
      ∃ o, construct N pcl h "PointXYZ" [PyVal.ref addr] = Except.ok o ∧ o.cls = "PointXYZ") ∧
    (∀ (N : Native) (h : Heap) (x y z : F64), ∃ o,
      construct N pcl h "PointXYZ" [PyVal.float x, PyVal.float y, PyVal.float z] = Except.ok o ∧
      o.cls = "PointXYZ") ∧
    (∀ (N : Native) (h : Heap) (vs : List PyVal), vs.length ≠ 0 → vs.length ≠ 1 →
      vs.length ≠ 3 → construct N pcl h "PointXYZ" vs = Except.error PyErr.typeError) := by
  refine ⟨rfl, rfl, ?_, ?_, ?_, ?_⟩
  · intro N h
    exact ⟨_, (construct_default N h).1, rfl⟩
  · intro N h addr p hp hcls
    exact ⟨p, construct_pointXYZ_copy N h addr p hp hcls, hcls⟩
  · intro N h x y z
    exact ⟨_, construct_pointXYZ_fields N h x y z, rfl⟩
  · intro N h vs h0 h1 h3
    exact construct_arity N h "PointXYZ" regPointXYZ _ _ _ _ vs findClass_pointXYZ
      inits_pointXYZ h0 h1 h3

/-- Witness for C1 at concrete calls: a copy of the live PointXYZ at address 0
is constructed, and a call with two arguments is a type error. -/
theorem pointXYZ_constructors_witness :
    (∃ o, construct Native.sample pcl [⟨"PointXYZ", Data.xyz ⟨1⟩ ⟨2⟩ ⟨3⟩⟩] "PointXYZ" [PyVal.ref 0] =
      Except.ok o ∧ o.cls = "PointXYZ") ∧
    construct Native.sample pcl [] "PointXYZ" [PyVal.float ⟨1⟩, PyVal.float ⟨2⟩] =
      Except.error PyErr.typeError :=
  ⟨pointXYZ_constructors.2.2.2.1 Native.sample [⟨"PointXYZ", Data.xyz ⟨1⟩ ⟨2⟩ ⟨3⟩⟩] 0
      ⟨"PointXYZ", Data.xyz ⟨1⟩ ⟨2⟩ ⟨3⟩⟩ rfl rfl,
    pointXYZ_constructors.2.2.2.2.2 Native.sample [] [PyVal.float ⟨1⟩, PyVal.float ⟨2⟩]
      (by decide) (by decide) (by decide)⟩

/-- C2.  The class registered as "RGB" has exactly three constructors, in this
order: one parameter of type `const _RGB &`, no parameter, three parameters of
type `std::uint8_t`.  A call with no argument, with a reference to a live RGB,
or with three Python ints in 0..255 constructs an RGB; a call with any number
of arguments other than 0, 1 or 3 matches no constructor. -/
theorem rgb_constructors :
    findClass pcl "RGB" = some regRGB ∧
    regRGB.inits.map (fun ps => ps.map Param.type) =
      [[CppType.constRef ⟨[], "_RGB"⟩], [], [CppType.uint8_t, CppType.uint8_t, CppType.uint8_t]] ∧
    (∀ (N : Native) (h : Heap), ∃ o, construct N pcl h "RGB" [] = Except.ok o ∧ o.cls = "RGB") ∧
    (∀ (N : Native) (h : Heap) (addr : Nat) (c : Instance), h[addr]? = some c → c.cls = "RGB" →
      ∃ o, construct N pcl h "RGB" [PyVal.ref addr] = Except.ok o ∧ o.cls = "RGB") ∧
    (∀ (N : Native) (h : Heap) (r g b : Int), (0 ≤ r ∧ r < 256) → (0 ≤ g ∧ g < 256) →
      (0 ≤ b ∧ b < 256) →
      ∃ o, construct N pcl h "RGB" [PyVal.int r, PyVal.int g, PyVal.int b] = Except.ok o ∧
        o.cls = "RGB") ∧
    (∀ (N : Native) (h : Heap) (vs : List PyVal), vs.length ≠ 0 → vs.length ≠ 1 →
      vs.length ≠ 3 → construct N pcl h "RGB" vs = Except.error PyErr.typeError) := by
  refine ⟨rfl, rfl, ?_, ?_, ?_, ?_⟩
  · intro N h
    exact ⟨_, (construct_default N h).2, rfl⟩
  · intro N h addr c hc hcls
    exact ⟨c, construct_rgb_copy N h addr c hc hcls, hcls⟩
  · intro N h r g b hr hg hb
    exact ⟨_, construct_rgb_fields N h r g b hr hg hb, rfl⟩
  · intro N h vs h0 h1 h3
    exact construct_arity N h "RGB" regRGB _ _ _ _ vs findClass_rgb inits_rgb h0 h1 h3

/-- Witness for C2 at concrete calls: `RGB(10, 20, 255)` is constructed, and a
call with four arguments is a type error. -/
theorem rgb_constructors_witness :
    (∃ o, construct Native.sample pcl [] "RGB" [PyVal.int 10, PyVal.int 20, PyVal.int 255] =
      Except.ok o ∧ o.cls = "RGB") ∧
    construct Native.sample pcl [] "RGB" [PyVal.int 1, PyVal.int 2, PyVal.int 3, PyVal.int 4] =
      Except.error PyErr.typeError :=
  ⟨rgb_constructors.2.2.2.2.1 Native.sample [] 10 20 255 (by decide) (by decide) (by decide),
    rgb_constructors.2.2.2.2.2 Native.sample []
      [PyVal.int 1, PyVal.int 2, PyVal.int 3, PyVal.int 4] (by decide) (by decide) (by decide)⟩


/-- C3, evaluated on the code.  On each of the two point types the only
operator registered is `py::self << py::self`, whose two operands are both
records of the class.  Called with the single record the claim speaks of (a
PointXYZ, or an RGB), the bound operation accepts no overload and returns
`NotImplemented`; it does not return a string. -/
theorem lshift_one_record_not_formatted :
    regPointXYZ.lshifts = [(Operand.self, Operand.self)] ∧
    regRGB.lshifts = [(Operand.self, Operand.self)] ∧
    (∀ N : Native,
      callLshift N pcl [⟨"PointXYZ", Data.xyz ⟨1⟩ ⟨2⟩ ⟨3⟩⟩] "PointXYZ" [PyVal.ref 0] =
        Except.ok PyVal.notImplemented) ∧
    (∀ N : Native,
      callLshift N pcl [⟨"RGB", Data.rgb 1 2 3⟩] "RGB" [PyVal.ref 0] =
        Except.ok PyVal.notImplemented) ∧
    (∀ s : String, (Except.ok PyVal.notImplemented : Except PyErr PyVal) ≠
      Except.ok (PyVal.str s)) := by
  refine ⟨rfl, rfl, fun _ => rfl, fun _ => rfl, ?_⟩
  intro s hs
  cases hs

/-- C4.  Every member the module registers on any class is a constructor or
the `<<` operation on two `py::self` operands, and no sequence of calls
changes an object that is already live: after every run, each address of the
starting heap still holds the object it held. -/
theorem no_mutation_exposed :
    (∀ c ∈ pcl, ∀ mem ∈ c.members,
      (∃ ps, mem = Member.init ps) ∨ mem = Member.lshift Operand.self Operand.self) ∧
    (∀ (N : Native) (h : Heap) (calls : List Call) (addr : Nat), addr < h.length →
      (run N pcl h calls)[addr]? = h[addr]?) := by
  constructor
  · intro c hc mem hmem
    simp only [pcl, List.mem_cons, List.mem_singleton, List.not_mem_nil, or_false] at hc
    rcases hc with rfl | rfl | rfl | rfl
    · simp [regBasePointXYZ, class_] at hmem
    · simp only [regPointXYZ, class_, ClassReg.def_, List.nil_append, List.cons_append,
        List.mem_cons, List.mem_singleton, List.not_mem_nil, or_false] at hmem
      rcases hmem with rfl | rfl | rfl | rfl
      · exact Or.inl ⟨_, rfl⟩
      · exact Or.inl ⟨_, rfl⟩
      · exact Or.inl ⟨_, rfl⟩
      · exact Or.inr rfl
    · simp [regBaseRGB, class_] at hmem
    · simp only [regRGB, class_, ClassReg.def_, List.nil_append, List.cons_append,
        List.mem_cons, List.mem_singleton, List.not_mem_nil, or_false] at hmem
      rcases hmem with rfl | rfl | rfl | rfl
      · exact Or.inl ⟨_, rfl⟩
      · exact Or.inl ⟨_, rfl⟩
      · exact Or.inl ⟨_, rfl⟩
      · exact Or.inr rfl
  · intro N h calls addr haddr
    obtain ⟨ext, hext⟩ := run_append N pcl calls h
    rw [hext, List.getElem?_append_left haddr]

/-- Witness for C4: after constructing a copy, applying `<<` and constructing
an RGB, the PointXYZ at address 0 is the object it was. -/
theorem no_mutation_exposed_witness :
    (run Native.sample pcl [⟨"PointXYZ", Data.xyz ⟨1⟩ ⟨2⟩ ⟨3⟩⟩]
        [Call.new "PointXYZ" [PyVal.ref 0], Call.method "__lshift__" [PyVal.ref 0, PyVal.ref 1],
          Call.new "RGB" [PyVal.int 7, PyVal.int 8, PyVal.int 9]])[0]? =
      [(⟨"PointXYZ", Data.xyz ⟨1⟩ ⟨2⟩ ⟨3⟩⟩ : Instance)][0]? :=
  no_mutation_exposed.2 Native.sample _ _ 0 (by decide)

/-- C5, as amended.  For all 32-bit floats x, y, z (any bit pattern, NaNs and
infinities included) the field constructor of PointXYZ stores exactly x, y, z,
and the call `PointXYZ(a, b, c)` stores the three arguments as narrowed to
`float`.  The module registers no field accessor: the only attribute names
that resolve on a PointXYZ are `__init__` and `__lshift__`, and reading `x`,
`y` or `z` is an attribute error. -/
theorem pointXYZ_fields_stored_not_exposed :
    (∀ x y z : F32, nativeInit regPointXYZ.cppType [Arg.f32 x, Arg.f32 y, Arg.f32 z] =
      some (Data.xyz x y z)) ∧
    (∀ (N : Native) (h : Heap) (a b c : F64),
      construct N pcl h "PointXYZ" [PyVal.float a, PyVal.float b, PyVal.float c] =
        Except.ok ⟨"PointXYZ", Data.xyz (N.narrow a) (N.narrow b) (N.narrow c)⟩) ∧
    (∀ (d : Data) (name : String) (mem : Member),
      getattr pcl ⟨"PointXYZ", d⟩ name = Except.ok mem →
        name = "__init__" ∨ name = "__lshift__") ∧
    (∀ d : Data, getattr pcl ⟨"PointXYZ", d⟩ "x" = Except.error PyErr.attributeError ∧
      getattr pcl ⟨"PointXYZ", d⟩ "y" = Except.error PyErr.attributeError ∧
      getattr pcl ⟨"PointXYZ", d⟩ "z" = Except.error PyErr.attributeError) :=
  ⟨fun _ _ _ => rfl, construct_pointXYZ_fields,
    fun d name mem hg => getattr_point_names ⟨"PointXYZ", d⟩ name mem (Or.inl rfl) hg,
    getattr_xyz⟩

/-- Witness for C5 as amended: the field constructor stores the bit patterns
1, 2, 3, and on the resulting PointXYZ the attribute `__lshift__`, which
resolves, bears one of the two registered names. -/
theorem pointXYZ_fields_stored_not_exposed_witness :
    nativeInit regPointXYZ.cppType [Arg.f32 ⟨1⟩, Arg.f32 ⟨2⟩, Arg.f32 ⟨3⟩] =
      some (Data.xyz ⟨1⟩ ⟨2⟩ ⟨3⟩) ∧
    ("__lshift__" = "__init__" ∨ "__lshift__" = "__lshift__") :=
  ⟨pointXYZ_fields_stored_not_exposed.1 ⟨1⟩ ⟨2⟩ ⟨3⟩,
    pointXYZ_fields_stored_not_exposed.2.2.1 (Data.xyz ⟨1⟩ ⟨2⟩ ⟨3⟩) "__lshift__"
      (Member.lshift Operand.self Operand.self) rfl⟩

/-- C5 as stated fails: `PointXYZ(1, 2, 3)` is constructed, and reading its
field `x` through the module yields no value; it is an attribute error. -/
theorem pointXYZ_field_read_fails :
    construct Native.sample pcl [] "PointXYZ" [PyVal.float ⟨1⟩, PyVal.float ⟨2⟩, PyVal.float ⟨3⟩] =
      Except.ok ⟨"PointXYZ", Data.xyz ⟨1⟩ ⟨2⟩ ⟨3⟩⟩ ∧
    getattr pcl ⟨"PointXYZ", Data.xyz ⟨1⟩ ⟨2⟩ ⟨3⟩⟩ "x" = Except.error PyErr.attributeError :=
  ⟨rfl, rfl⟩

/-- C6, as amended.  For all r, g, b in 0..255 the call `RGB(r, g, b)` stores
exactly r, g, b.  The module registers no field accessor: the only attribute
names that resolve on an RGB are `__init__` and `__lshift__`, and reading `r`,
`g` or `b` is an attribute error. -/
theorem rgb_fields_stored_not_exposed :
    (∀ (N : Native) (h : Heap) (r g b : Nat), r < 256 → g < 256 → b < 256 →
      construct N pcl h "RGB" [PyVal.int r, PyVal.int g, PyVal.int b] =
        Except.ok ⟨"RGB", Data.rgb r g b⟩) ∧
    (∀ (d : Data) (name : String) (mem : Member),
      getattr pcl ⟨"RGB", d⟩ name = Except.ok mem →
        name = "__init__" ∨ name = "__lshift__") ∧
    (∀ d : Data, getattr pcl ⟨"RGB", d⟩ "r" = Except.error PyErr.attributeError ∧
      getattr pcl ⟨"RGB", d⟩ "g" = Except.error PyErr.attributeError ∧
      getattr pcl ⟨"RGB", d⟩ "b" = Except.error PyErr.attributeError) := by
  refine ⟨?_, fun d name mem hg => getattr_point_names ⟨"RGB", d⟩ name mem (Or.inr rfl) hg,
    getattr_rgb⟩
  intro N h r g b hr hg hb
  have := construct_rgb_fields N h r g b ⟨by omega, by omega⟩ ⟨by omega, by omega⟩
    ⟨by omega, by omega⟩
  simpa using this

/-- Witness for C6 as amended: `RGB(0, 128, 255)` stores 0, 128, 255. -/
theorem rgb_fields_stored_not_exposed_witness :
    construct Native.sample pcl [] "RGB" [PyVal.int (0 : Nat), PyVal.int (128 : Nat),
        PyVal.int (255 : Nat)] =
      Except.ok ⟨"RGB", Data.rgb 0 128 255⟩ :=
  rgb_fields_stored_not_exposed.1 Native.sample [] 0 128 255 (by decide) (by decide) (by decide)

/-- C6 as stated fails: `RGB(10, 20, 30)` is constructed, and reading its field
`r` through the module yields no value; it is an attribute error. -/
theorem rgb_field_read_fails :
    construct Native.sample pcl [] "RGB" [PyVal.int 10, PyVal.int 20, PyVal.int 30] =
      Except.ok ⟨"RGB", Data.rgb 10 20 30⟩ ∧
    getattr pcl ⟨"RGB", Data.rgb 10 20 30⟩ "r" = Except.error PyErr.attributeError :=
  ⟨rfl, rfl⟩

/-- C7, as amended.  When any of the three integers passed to the RGB field
constructor lies outside 0..255, no registered constructor accepts the
arguments and the call is a type error; and every RGB a sequence of calls
produces from the empty heap holds r, g, b below 256. -/
theorem rgb_out_of_range_rejected :
    (∀ (N : Native) (h : Heap) (r g b : Int),
      ¬((0 ≤ r ∧ r < 256) ∧ (0 ≤ g ∧ g < 256) ∧ (0 ≤ b ∧ b < 256)) →
      construct N pcl h "RGB" [PyVal.int r, PyVal.int g, PyVal.int b] =
        Except.error PyErr.typeError) ∧
    (∀ (N : Native) (calls : List Call) (o : Instance), o ∈ run N pcl [] calls →
      o.cls = "RGB" → ∃ r g b, o.data = Data.rgb r g b ∧ r < 256 ∧ g < 256 ∧ b < 256) := by
  refine ⟨construct_rgb_out_of_range, ?_⟩
  intro N calls o ho hcls
  have hp : o.Produced := run_produced N calls [] (by simp) o ho
  rcases hp with ⟨h1, -⟩ | ⟨-, h2⟩
  · rw [hcls] at h1
    exact absurd h1 (by decide)
  · exact h2

/-- Witness for C7 as amended: `RGB(0, 300, 0)` is a type error, and the RGB
produced by `RGB(1, 2, 3)` holds values below 256. -/
theorem rgb_out_of_range_rejected_witness :
    construct Native.sample pcl [] "RGB" [PyVal.int 0, PyVal.int 300, PyVal.int 0] =
      Except.error PyErr.typeError ∧
    (∃ r g b, (⟨"RGB", Data.rgb 1 2 3⟩ : Instance).data = Data.rgb r g b ∧
      r < 256 ∧ g < 256 ∧ b < 256) :=
  ⟨rgb_out_of_range_rejected.1 Native.sample [] 0 300 0 (by decide),
    rgb_out_of_range_rejected.2 Native.sample
      [Call.new "RGB" [PyVal.int 1, PyVal.int 2, PyVal.int 3]] ⟨"RGB", Data.rgb 1 2 3⟩
      (by decide) rfl⟩

/-- C7 as stated fails: `RGB(256, 0, 0)` and `RGB(-1, 0, 0)` are rejected with
a type error, the error of a call whose first argument is a string, and not
with an overflow or value error. -/
theorem rgb_256_is_type_error :
    construct Native.sample pcl [] "RGB" [PyVal.int 256, PyVal.int 0, PyVal.int 0] =
      Except.error PyErr.typeError ∧
    construct Native.sample pcl [] "RGB" [PyVal.int (-1), PyVal.int 0, PyVal.int 0] =
      Except.error PyErr.typeError ∧
    construct Native.sample pcl [] "RGB" [PyVal.str "256", PyVal.int 0, PyVal.int 0] =
      construct Native.sample pcl [] "RGB" [PyVal.int 256, PyVal.int 0, PyVal.int 0] ∧
    construct Native.sample pcl [] "RGB" [PyVal.int 256, PyVal.int 0, PyVal.int 0] ≠
      Except.error PyErr.overflowError ∧
    construct Native.sample pcl [] "RGB" [PyVal.int 256, PyVal.int 0, PyVal.int 0] ≠
      Except.error PyErr.valueError := by
  refine ⟨rfl, rfl, rfl, ?_, ?_⟩ <;>
    · intro h
      have h2 : (Except.error PyErr.typeError : Except PyErr Instance) = _ := h
      cases h2

/-- C8.  For every live PointXYZ or RGB `p`, the single-argument constructor of
its class applied to a reference to `p` produces an object equal to `p` in
class and in all fields, the new object is allocated after the live ones, and
the address of `p` still holds `p`. -/
theorem copy_constructor_duplicates (N : Native) (h : Heap) (addr : Nat) (p : Instance)
    (hp : h[addr]? = some p) (hcls : p.cls = "PointXYZ" ∨ p.cls = "RGB") :
    construct N pcl h p.cls [PyVal.ref addr] = Except.ok p ∧
      step N pcl h (Call.new p.cls [PyVal.ref addr]) = h ++ [p] ∧
      (step N pcl h (Call.new p.cls [PyVal.ref addr]))[addr]? = some p := by
  have hc : construct N pcl h p.cls [PyVal.ref addr] = Except.ok p := by
    rcases hcls with hcls | hcls
    · rw [hcls]
      exact construct_pointXYZ_copy N h addr p hp hcls
    · rw [hcls]
      exact construct_rgb_copy N h addr p hp hcls
  have hs : step N pcl h (Call.new p.cls [PyVal.ref addr]) = h ++ [p] := by
    simp only [step, invoke, hc]
  refine ⟨hc, hs, ?_⟩
  have hlt : addr < h.length := by
    by_contra hge
    have : h[addr]? = Option.none := List.getElem?_eq_none (by omega)
    rw [this] at hp
    cases hp
  rw [hs, List.getElem?_append_left hlt, hp]

/-- Witness for C8: copying the RGB at address 1 of a two-object heap. -/
theorem copy_constructor_duplicates_witness :
    construct Native.sample pcl [⟨"PointXYZ", Data.xyz ⟨1⟩ ⟨2⟩ ⟨3⟩⟩, ⟨"RGB", Data.rgb 9 8 7⟩]
        "RGB" [PyVal.ref 1] = Except.ok ⟨"RGB", Data.rgb 9 8 7⟩ ∧
      step Native.sample pcl [⟨"PointXYZ", Data.xyz ⟨1⟩ ⟨2⟩ ⟨3⟩⟩, ⟨"RGB", Data.rgb 9 8 7⟩]
          (Call.new "RGB" [PyVal.ref 1]) =
        [⟨"PointXYZ", Data.xyz ⟨1⟩ ⟨2⟩ ⟨3⟩⟩, ⟨"RGB", Data.rgb 9 8 7⟩] ++
          [⟨"RGB", Data.rgb 9 8 7⟩] ∧
      (step Native.sample pcl [⟨"PointXYZ", Data.xyz ⟨1⟩ ⟨2⟩ ⟨3⟩⟩, ⟨"RGB", Data.rgb 9 8 7⟩]
          (Call.new "RGB" [PyVal.ref 1]))[1]? = some ⟨"RGB", Data.rgb 9 8 7⟩ :=
  copy_constructor_duplicates Native.sample
    [⟨"PointXYZ", Data.xyz ⟨1⟩ ⟨2⟩ ⟨3⟩⟩, ⟨"RGB", Data.rgb 9 8 7⟩] 1 ⟨"RGB", Data.rgb 9 8 7⟩
    rfl (Or.inr rfl)

/-- C9.  Renaming `_PointXYZ` to `_RGB`, `PointXYZ` to `RGB` and `float` to
`std::uint8_t` maps the registered interface of PointXYZ (C++ type, bases,
Python name, constructors with their parameter types and the operator, in
order) onto the registered interface of RGB, and the interface of the base
`_PointXYZ` onto that of `_RGB`. -/
theorem rgb_interface_is_renamed_pointXYZ :
    regPointXYZ.interface.rename = regRGB.interface ∧
      regBasePointXYZ.interface.rename = regBaseRGB.interface := by
  decide

/-- C10.  The bases `_PointXYZ` and `_RGB` carry no member and no base, cannot
be constructed, and are registered before the class that names them as its
base.  On every heap the module produces from the empty heap, a value that the
single-argument constructor of PointXYZ (of RGB) accepts is a reference to a
live PointXYZ (RGB). -/
theorem base_markers :
    regBasePointXYZ.members = [] ∧ regBaseRGB.members = [] ∧
    regBasePointXYZ.bases = [] ∧ regBaseRGB.bases = [] ∧
    (regPointXYZ.bases.map (findCpp pcl) = [some regBasePointXYZ] ∧
      pcl.indexOf regBasePointXYZ < pcl.indexOf regPointXYZ) ∧
    (regRGB.bases.map (findCpp pcl) = [some regBaseRGB] ∧
      pcl.indexOf regBaseRGB < pcl.indexOf regRGB) ∧
    (∀ (N : Native) (h : Heap) (vs : List PyVal),
      construct N pcl h "_PointXYZ" vs = Except.error PyErr.typeError ∧
        construct N pcl h "_RGB" vs = Except.error PyErr.typeError) ∧
    (∀ (N : Native) (calls : List Call) (v : PyVal) (o : Instance),
      construct N pcl (run N pcl [] calls) "PointXYZ" [v] = Except.ok o →
        ∃ addr p, v = PyVal.ref addr ∧ (run N pcl [] calls)[addr]? = some p ∧
          p.cls = "PointXYZ") ∧
    (∀ (N : Native) (calls : List Call) (v : PyVal) (o : Instance),
      construct N pcl (run N pcl [] calls) "RGB" [v] = Except.ok o →
        ∃ addr p, v = PyVal.ref addr ∧ (run N pcl [] calls)[addr]? = some p ∧
          p.cls = "RGB") := by
  refine ⟨rfl, rfl, rfl, rfl, ⟨by decide, by decide⟩, ⟨by decide, by decide⟩,
    construct_base_error, ?_, ?_⟩
  · intro N calls v o hc
    exact copy_source_pointXYZ N _ v o (run_produced N calls [] (by simp)) hc
  · intro N calls v o hc
    exact copy_source_rgb N _ v o (run_produced N calls [] (by simp)) hc

/-- Witness for C10: after `PointXYZ()` and `RGB()`, the value accepted by the
single-argument constructor of PointXYZ refers to a live PointXYZ. -/
theorem base_markers_witness :
    ∃ addr p, PyVal.ref 0 = PyVal.ref addr ∧
      (run Native.sample pcl [] [Call.new "PointXYZ" [], Call.new "RGB" []])[addr]? = some p ∧
      p.cls = "PointXYZ" :=
  base_markers.2.2.2.2.2.2.2.1 Native.sample [Call.new "PointXYZ" [], Call.new "RGB" []]
    (PyVal.ref 0) ⟨"PointXYZ", Data.xyz ⟨0⟩ ⟨0⟩ ⟨0⟩⟩ rfl

end PclBinding
